import Mathlib

/-!
Verification development for the CondoScout chat application
(src/App.tsx together with the embedded geminiService module and
src/types.ts).

The development shallowly embeds the data model (types.ts), the
grounding-normalization part of sendMessageToGemini, the chat-context
operations startNewChat / resumeChat / sendMessageToGemini, and the
session-store operations parseAndLoadSessions / createNewSession /
deleteSession / handleSendMessage (split into its submission step and
its two resolution steps).  JavaScript truthiness of optional strings
and booleans is modelled explicitly.
-/

namespace CondoScout

/-- Message role, types.ts: role: 'user' | 'model'. -/
inductive Role where
  | user
  | model
deriving DecidableEq, Repr

/-- types.ts GroundingChunk.maps.placeAnswerSources.reviewSnippets entries:
\x7b content?: string \x7d. -/
structure ReviewSnippet where
  content : Option String
deriving DecidableEq, Repr

/-- types.ts GroundingChunk.maps.placeAnswerSources:
\x7b reviewSnippets?: \x7b content?: string \x7d[] \x7d. -/
structure PlaceAnswerSources where
  reviewSnippets : Option (List ReviewSnippet)
deriving DecidableEq, Repr

/-- types.ts GroundingChunk.maps payload: googleMapsUri?, uri?, title?,
placeId?, address?, placeAnswerSources?. -/
structure MapsPayload where
  googleMapsUri : Option String
  uri : Option String
  title : Option String
  placeId : Option String
  address : Option String
  placeAnswerSources : Option PlaceAnswerSources
deriving DecidableEq, Repr

/-- types.ts GroundingChunk.web payload: uri?, title?. -/
structure WebPayload where
  uri : Option String
  title : Option String
deriving DecidableEq, Repr

/-- types.ts GroundingChunk: \x7b web?, maps? \x7d. -/
structure GroundingChunk where
  web : Option WebPayload
  maps : Option MapsPayload
deriving DecidableEq, Repr

/-- types.ts PlaceData: title and uri mandatory, the rest optional. -/
structure PlaceData where
  title : String
  uri : String
  address : Option String
  description : Option String
  placeId : Option String
deriving DecidableEq, Repr

/-- types.ts Message. `places` and `isThinking` are optional fields. -/
structure Message where
  id : String
  role : Role
  text : String
  places : Option (List PlaceData)
  isThinking : Option Bool
deriving DecidableEq, Repr

/-- types.ts ChatSession.  Timestamps are Date.now() values, modelled
as naturals. -/
structure ChatSession where
  id : String
  title : String
  messages : List Message
  createdAt : Nat
  lastUpdated : Nat
deriving DecidableEq, Repr

/-- types.ts Location.  Coordinates are opaque to the core logic
(pure pass-through), so integers suffice for the embedding. -/
structure Location where
  latitude : Int
  longitude : Int
deriving DecidableEq, Repr

/-- JavaScript `a || b` on an optional string `a` with a string
fallback `b`: an absent or empty string is falsy and selects `b`. -/
def jsOrString (a : Option String) (b : String) : String :=
  match a with
  | some s => if s = "" then b else s
  | none => b

/-- The URI resolution in sendMessageToGemini, App.tsx line 504:
`mapData.uri || mapData.googleMapsUri || ""` — prefer the primary
`uri` field, fall back to `googleMapsUri`, else empty. -/
def resolveUri (m : MapsPayload) : String :=
  jsOrString m.uri (jsOrString m.googleMapsUri "")

/-- The snippet extraction in sendMessageToGemini, App.tsx line 507:
`mapData.placeAnswerSources?.reviewSnippets?.[0]?.content`
(optional chaining on every step, first element of the array). -/
def extractSnippet (m : MapsPayload) : Option String :=
  match m.placeAnswerSources with
  | none => none
  | some pas =>
    match pas.reviewSnippets with
    | none => none
    | some [] => none
    | some (r :: _) => r.content

/-- The per-chunk body of the forEach loop in sendMessageToGemini,
App.tsx lines 501-518: require a maps payload, resolve the URI, and
push a PlaceData record only when both the title and the resolved URI
are truthy (non-empty). -/
def chunkToPlace (chunk : GroundingChunk) : Option PlaceData :=
  match chunk.maps with
  | none => none
  | some mapData =>
    let uri := resolveUri mapData
    match mapData.title with
    | none => none
    | some t =>
      if t ≠ "" ∧ uri ≠ "" then
        some { title := t, uri := uri, placeId := mapData.placeId,
               description := extractSnippet mapData, address := mapData.address }
      else none

/-- The forEach/push accumulation over the grounding chunks,
App.tsx lines 500-519: each chunk contributes at most one record,
in input order. -/
def extractPlaces (chunks : List GroundingChunk) : List PlaceData :=
  chunks.filterMap chunkToPlace

/-- The title-based deduplication, App.tsx line 522:
`places.filter((v, i, a) => a.findIndex(t => (t.title === v.title)) === i)`
— keep an element exactly when its index is the first index at which
its title occurs. -/
def uniquePlaces (a : List PlaceData) : List PlaceData :=
  (a.enum.filter
    (fun iv => a.findIdx (fun t => t.title == iv.2.title) == iv.1)).map Prod.snd

/-- The Grounding Normalizer: the place-extraction pipeline of
sendMessageToGemini, App.tsx lines 497-527 — extract records from the
chunks, then deduplicate by title. -/
def groundingNormalizer (chunks : List GroundingChunk) : List PlaceData :=
  uniquePlaces (extractPlaces chunks)

/-- Deduplication by first occurrence of the title, written the way the
spec describes it (stable, order-preserving, keeping the first record
of each title): walk the list with the set of titles already seen,
skip a record whose title was seen, keep it and remember its title
otherwise.  This is the specification-side definition that the code's
`uniquePlaces` filter is proved to refine. -/
def firstOccurrenceDedup (seen : List String) : List PlaceData → List PlaceData
  | [] => []
  | p :: rest =>
    if p.title ∈ seen then firstOccurrenceDedup seen rest
    else p :: firstOccurrenceDedup (p.title :: seen) rest

/-- The live conversation context created by ai.chats.create: the model
name and system instruction are fixed configuration, so the part that
varies — the seeded history of (role, text) pairs — is what the
embedding records. -/
structure ChatContext where
  history : List (Role × String)
deriving DecidableEq, Repr

/-- startNewChat (geminiService, App.tsx lines 448-456): a fresh context
with empty history. -/
def startNewChat : ChatContext :=
  { history := [] }

/-- The filter-and-map producing validHistory in resumeChat
(App.tsx lines 460-465): drop messages whose isThinking is truthy and
the message with id "welcome"; map the rest to (role, text). -/
def resumeChatSeed (history : List Message) : List (Role × String) :=
  (history.filter
    (fun m => !(m.isThinking.getD false) && m.id != "welcome")).map
    (fun m => (m.role, m.text))

/-- resumeChat (App.tsx lines 458-475): replace the live context with one
seeded from the filtered history. -/
def resumeChat (history : List Message) : ChatContext :=
  { history := resumeChatSeed history }

/-- The provider's response object as sendMessageToGemini reads it:
result.text (possibly absent/empty) and
result.candidates?.[0]?.groundingMetadata?.groundingChunks
(possibly absent). -/
structure ProviderResult where
  text : Option String
  groundingChunks : Option (List GroundingChunk)
deriving DecidableEq, Repr

/-- Outcome of the awaited chatSession.sendMessage call: a response, or
a transport/provider error (caught by the surrounding try/catch; the
error value itself is only logged, so it is opaque here). -/
inductive ProviderOutcome where
  | ok (r : ProviderResult)
  | err
deriving DecidableEq, Repr

/-- The fixed apology string of the catch branch, App.tsx line 532. -/
def apologyText : String :=
  "I apologize, but I am unable to access the property database at this moment. Please try again shortly."

/-- The fixed fallback text substituted when the provider text is falsy,
App.tsx line 525. -/
def defaultCuratedText : String :=
  "I\u0027ve curated a list of properties for you:"

/-- sendMessageToGemini (App.tsx lines 477-536).  The module-level
mutable chatSession is passed in explicitly; the network call is
represented by its outcome.  A thrown error is an Except.error; the
catch branch converts provider errors into an ok result with the
apology text and no places. -/
def sendMessageToGemini (chatSession : Option ChatContext) (message : String)
    (userLocation : Option Location) (outcome : ProviderOutcome) :
    Except String (String × List PlaceData) :=
  let cs : Option ChatContext :=
    match chatSession with
    | none => some startNewChat
    | some c => some c
  match cs with
  | none => Except.error "Failed to initialize chat session"
  | some _ =>
    match outcome with
    | .err => Except.ok (apologyText, [])
    | .ok r =>
      let places : List PlaceData :=
        match r.groundingChunks with
        | some chunks => extractPlaces chunks
        | none => []
      Except.ok (jsOrString r.text defaultCuratedText, uniquePlaces places)

/-- The application state the session-store operations act on:
the sessions list, the active session id, and the module-level live
chat context of geminiService (none before any context is created). -/
structure AppState where
  sessions : List ChatSession
  currentSessionId : Option String
  chat : Option ChatContext
deriving DecidableEq, Repr

/-- The welcome message built in createNewSession, App.tsx lines 196-201. -/
def welcomeMsg : Message :=
  { id := "welcome"
    role := .model
    text := "👋 Hello, I\u0027m **Royce**.\n\nI am your personal real estate concierge. I\u0027ll help you find condominiums, apartments, or luxury hotels.\n\n*\"Show me some 1-bedroom apartments in Sukhumvit near the station.\"*"
    places := some []
    isThinking := none }

/-- The fresh default session built in createNewSession, App.tsx
lines 203-209: title "New Search", a single welcome message,
createdAt = lastUpdated = now.  newId stands for the uuidv4 value. -/
def newSessionObj (newId : String) (now : Nat) : ChatSession :=
  { id := newId
    title := "New Search"
    messages := [welcomeMsg]
    createdAt := now
    lastUpdated := now }

/-- createNewSession, App.tsx lines 194-215: prepend the fresh default
session, make it active, and start a new chat context. -/
def createNewSession (newId : String) (now : Nat) (st : AppState) : AppState :=
  { sessions := newSessionObj newId now :: st.sessions
    currentSessionId := some newId
    chat := some startNewChat }

/-- deleteSession, App.tsx lines 217-229: drop the session with the
given id; when it was active, either adopt the first remaining session
(resuming its context) or, when none remain, create a fresh default
session (newId/now stand for the uuidv4/Date.now of that creation). -/
def deleteSession (id : String) (newId : String) (now : Nat) (st : AppState) : AppState :=
  let newSessions := st.sessions.filter (fun s => s.id != id)
  if st.currentSessionId = some id then
    match newSessions with
    | s0 :: _ =>
      { sessions := newSessions
        currentSessionId := some s0.id
        chat := some (resumeChat s0.messages) }
    | [] => createNewSession newId now { st with sessions := newSessions }
  else
    { st with sessions := newSessions }

/-- The three shapes of raw persisted input seen by
parseAndLoadSessions, App.tsx lines 134-152: a null string, a string
JSON.parse rejects, or a successfully parsed ChatSession list. -/
inductive RawSessions where
  | null
  | invalid
  | valid (parsed : List ChatSession)
deriving DecidableEq, Repr

/-- The selection `parsed.sort((a, b) => b.lastUpdated - a.lastUpdated)[0]`
of App.tsx line 140: the head of the stable descending sort, i.e. the
first element attaining the maximal lastUpdated. -/
def mostRecentOf (s0 : ChatSession) (rest : List ChatSession) : ChatSession :=
  rest.foldl (fun best s => if best.lastUpdated < s.lastUpdated then s else best) s0

/-- parseAndLoadSessions, App.tsx lines 134-152.  A null input or a
parse failure creates a default session; a parsed non-empty list makes
the most recently updated session active and resumes its context; a
parsed empty list also creates a default session.  (The in-place
Array.sort means the stored list may be reordered; no theorem below
relies on the stored order in the non-empty branch.) -/
def parseAndLoadSessions (raw : RawSessions) (newId : String) (now : Nat)
    (st : AppState) : AppState :=
  match raw with
  | .null => createNewSession newId now st
  | .invalid => createNewSession newId now st
  | .valid parsed =>
    match parsed with
    | [] => createNewSession newId now { st with sessions := parsed }
    | s0 :: rest =>
      let mostRecent := mostRecentOf s0 rest
      { sessions := parsed
        currentSessionId := some mostRecent.id
        chat := some (resumeChat mostRecent.messages) }

/-- The user message built in handleSendMessage, App.tsx line 244. -/
def userMessage (msgId : String) (userText : String) : Message :=
  { id := msgId, role := .user, text := userText, places := none, isThinking := none }

/-- The thinking placeholder built in handleSendMessage, App.tsx
line 246. -/
def thinkingMessage (msgId : String) : Message :=
  { id := msgId, role := .model, text := "", places := none, isThinking := some true }

/-- The title derivation of App.tsx line 252:
`userText.length > 30 ? userText.substring(0, 30) + '...' : userText`. -/
def deriveTitle (userText : String) : String :=
  if userText.length > 30 then userText.take 30 ++ "..." else userText

/-- The per-session updater of the submission step of handleSendMessage,
App.tsx lines 248-258: on the active session, set the title from the
first user turn (messages.length <= 1), bump lastUpdated, and append
the user message and the thinking placeholder. -/
def updateSessionOnSubmit (currentId userMsgId thinkingMsgId : String)
    (userText : String) (now : Nat) (session : ChatSession) : ChatSession :=
  if session.id = currentId then
    { session with
      title := if session.messages.length ≤ 1 then deriveTitle userText else session.title
      lastUpdated := now
      messages := session.messages
        ++ [userMessage userMsgId userText, thinkingMessage thinkingMsgId] }
  else session

/-- The submission step over the whole sessions list (the first
setSessions of handleSendMessage). -/
def submitTurn (currentId userMsgId thinkingMsgId : String) (userText : String)
    (now : Nat) (sessions : List ChatSession) : List ChatSession :=
  sessions.map (updateSessionOnSubmit currentId userMsgId thinkingMsgId userText now)

/-- The in-place resolution of the placeholder on success, App.tsx
line 265: the message with the placeholder id gets the response text
and places and isThinking = false. -/
def resolveMessage (thinkingMsgId : String) (rtext : String)
    (rplaces : List PlaceData) (msg : Message) : Message :=
  if msg.id = thinkingMsgId then
    { msg with text := rtext, places := some rplaces, isThinking := some false }
  else msg

/-- The success-resolution step of handleSendMessage, App.tsx
lines 263-269. -/
def resolveTurnSuccess (currentId thinkingMsgId : String) (rtext : String)
    (rplaces : List PlaceData) (sessions : List ChatSession) : List ChatSession :=
  sessions.map (fun session =>
    if session.id = currentId then
      { session with
        messages := session.messages.map (resolveMessage thinkingMsgId rtext rplaces) }
    else session)

/-- The in-place resolution of the placeholder when sendMessageToGemini
itself throws, App.tsx line 273. -/
def resolveErrorMessage (thinkingMsgId : String) (msg : Message) : Message :=
  if msg.id = thinkingMsgId then
    { msg with text := "Connection error. Please try again.", isThinking := some false }
  else msg

/-- The catch-resolution step of handleSendMessage, App.tsx
lines 271-277. -/
def resolveTurnError (currentId thinkingMsgId : String)
    (sessions : List ChatSession) : List ChatSession :=
  sessions.map (fun session =>
    if session.id = currentId then
      { session with messages := session.messages.map (resolveErrorMessage thinkingMsgId) }
    else session)

/-- The seed filter as the spec words it: exclude exactly the messages
with isThinking = true and the message with id "welcome"; map every
remaining message to its (role, text) pair, in original order.  This
is the specification-side definition compared with resumeChat. -/
def specSeedHistory (history : List Message) : List (Role × String) :=
  (history.filter
    (fun m => (m.isThinking != some true) && (m.id != "welcome"))).map
    (fun m => (m.role, m.text))

/-- A grounding chunk the claim describes as never producing a record:
no maps payload at all, or a maps payload lacking a non-empty title,
or one carrying neither the primary uri field nor the fallback
googleMapsUri field. -/
def chunkRejected (c : GroundingChunk) : Prop :=
  c.maps = none
  ∨ ∃ m, c.maps = some m
      ∧ (m.title = none ∨ m.title = some ""
         ∨ (m.uri = none ∧ m.googleMapsUri = none))

/-- A concrete malformed chunk: a title but neither URI field. -/
def noUriChunkEx : GroundingChunk :=
  { web := none
    maps := some
      { googleMapsUri := none, uri := none, title := some "Sukhumvit Loft"
        placeId := none, address := none, placeAnswerSources := none } }

/-- A concrete well-formed chunk, used alongside noUriChunkEx. -/
def goodChunkEx : GroundingChunk :=
  { web := none
    maps := some
      { googleMapsUri := none, uri := some "u1", title := some "Silom Tower"
        placeId := none, address := none, placeAnswerSources := none } }

/-- A concrete freshly-created session (id "s1", timestamps 0), used by
the concrete witness and counterexample theorems. -/
def sessionEx : ChatSession :=
  { id := "s1", title := "New Search", messages := [welcomeMsg]
    createdAt := 0, lastUpdated := 0 }

/-- A concrete application state holding only sessionEx, active. -/
def stateEx : AppState :=
  { sessions := [sessionEx], currentSessionId := some "s1", chat := none }

/-- A concrete session with a later lastUpdated than sessionEx. -/
def sessionEx2 : ChatSession :=
  { id := "s2", title := "New Search", messages := [welcomeMsg]
    createdAt := 3, lastUpdated := 3 }

/-- The concrete application state before any session exists. -/
def emptyStateEx : AppState :=
  { sessions := [], currentSessionId := none, chat := none }

theorem firstOccurrenceDedup_congr :
    ∀ (l : List PlaceData) {s1 s2 : List String},
      (∀ x, x ∈ s1 ↔ x ∈ s2) →
      firstOccurrenceDedup s1 l = firstOccurrenceDedup s2 l
  | [], _, _, _ => rfl
  | p :: rest, s1, s2, h => by
    by_cases hp : p.title ∈ s1
    · rw [firstOccurrenceDedup, firstOccurrenceDedup, if_pos hp,
        if_pos ((h _).mp hp), firstOccurrenceDedup_congr rest h]
    · rw [firstOccurrenceDedup, firstOccurrenceDedup, if_neg hp,
        if_neg (fun hc => hp ((h _).mpr hc))]
      exact congrArg (fun l => p :: l)
        (firstOccurrenceDedup_congr rest (fun x => by
          simp only [List.mem_cons, h x]))

theorem mem_firstOccurrenceDedup_not_seen :
    ∀ (l : List PlaceData) (seen : List String) (q : PlaceData),
      q ∈ firstOccurrenceDedup seen l → q.title ∉ seen
  | [], _, _, h => absurd h (List.not_mem_nil _)
  | p :: rest, seen, q, h => by
    by_cases hp : p.title ∈ seen
    · rw [firstOccurrenceDedup, if_pos hp] at h
      exact mem_firstOccurrenceDedup_not_seen rest seen q h
    · rw [firstOccurrenceDedup, if_neg hp] at h
      rcases List.mem_cons.mp h with hq | hq
      · exact hq ▸ hp
      · have := mem_firstOccurrenceDedup_not_seen rest (p.title :: seen) q hq
        exact fun hc => this (List.mem_cons_of_mem _ hc)

theorem firstOccurrenceDedup_pairwise :
    ∀ (l : List PlaceData) (seen : List String),
      (firstOccurrenceDedup seen l).Pairwise (fun p q => p.title ≠ q.title)
  | [], _ => List.Pairwise.nil
  | p :: rest, seen => by
    by_cases hp : p.title ∈ seen
    · rw [firstOccurrenceDedup, if_pos hp]
      exact firstOccurrenceDedup_pairwise rest seen
    · rw [firstOccurrenceDedup, if_neg hp]
      refine List.pairwise_cons.mpr ⟨fun q hq => ?_, firstOccurrenceDedup_pairwise rest _⟩
      have := mem_firstOccurrenceDedup_not_seen rest (p.title :: seen) q hq
      exact fun he => this (he ▸ List.mem_cons_self _ _)

theorem firstOccurrenceDedup_sublist :
    ∀ (l : List PlaceData) (seen : List String),
      (firstOccurrenceDedup seen l).Sublist l
  | [], _ => List.Sublist.refl _
  | p :: rest, seen => by
    by_cases hp : p.title ∈ seen
    · rw [firstOccurrenceDedup, if_pos hp]
      exact (firstOccurrenceDedup_sublist rest seen).cons p
    · rw [firstOccurrenceDedup, if_neg hp]
      exact (firstOccurrenceDedup_sublist rest _).cons₂ p

theorem uniquePlaces_aux :
    ∀ (rest pre : List PlaceData),
      ((List.enumFrom pre.length rest).filter
        (fun iv => (pre ++ rest).findIdx (fun t => t.title == iv.2.title) == iv.1)).map Prod.snd
      = firstOccurrenceDedup (pre.map (fun p => p.title)) rest
  | [], _ => by simp [firstOccurrenceDedup]
  | v :: rest, pre => by
    have hassoc : (pre ++ [v]) ++ rest = pre ++ v :: rest := by simp
    have hIH := uniquePlaces_aux rest (pre ++ [v])
    rw [hassoc] at hIH
    have hlen : (pre ++ [v]).length = pre.length + 1 := by simp
    rw [hlen] at hIH
    have hmapv : (pre ++ [v]).map (fun p => p.title)
        = pre.map (fun p => p.title) ++ [v.title] := by simp
    rw [hmapv] at hIH
    have hhead : (v :: rest).findIdx (fun t => t.title == v.title) = 0 := by
      rw [List.findIdx_cons]
      simp [beq_self_eq_true]
    rw [List.enumFrom_cons]
    by_cases hmem : v.title ∈ pre.map (fun p => p.title)
    · have hex : ∃ x ∈ pre, (fun t => t.title == v.title) x = true := by
        rcases List.mem_map.mp hmem with ⟨x, hx, hxt⟩
        exact ⟨x, hx, beq_iff_eq.mpr hxt⟩
      have hlt : pre.findIdx (fun t => t.title == v.title) < pre.length :=
        List.findIdx_lt_length.mpr hex
      have hidx : (pre ++ v :: rest).findIdx (fun t => t.title == v.title)
          = pre.findIdx (fun t => t.title == v.title) := by
        rw [List.findIdx_append, if_pos hlt]
      have hcond : ((pre ++ v :: rest).findIdx (fun t => t.title == v.title) == pre.length)
          = false := by
        rw [hidx]
        exact beq_eq_false_iff_ne.mpr (Nat.ne_of_lt hlt)
      rw [List.filter_cons_of_neg (by simpa using hcond)]
      rw [hIH, firstOccurrenceDedup, if_pos hmem]
      exact firstOccurrenceDedup_congr rest (fun x => by
        simp only [List.mem_append, List.mem_singleton]
        constructor
        · rintro (hx | rfl)
          · exact hx
          · exact hmem
        · exact Or.inl)
    · have hnex : ¬ ∃ x ∈ pre, (fun t => t.title == v.title) x = true := by
        rintro ⟨x, hx, hxt⟩
        exact hmem (List.mem_map.mpr ⟨x, hx, beq_iff_eq.mp hxt⟩)
      have hnlt : ¬ pre.findIdx (fun t => t.title == v.title) < pre.length :=
        fun h => hnex (List.findIdx_lt_length.mp h)
      have hidx : (pre ++ v :: rest).findIdx (fun t => t.title == v.title) = pre.length := by
        rw [List.findIdx_append, if_neg hnlt, hhead, Nat.zero_add]
      rw [List.filter_cons_of_pos (by simpa using beq_iff_eq.mpr hidx)]
      rw [List.map_cons, hIH, firstOccurrenceDedup, if_neg hmem]
      congr 1
      exact firstOccurrenceDedup_congr rest (fun x => by
        simp only [List.mem_append, List.mem_singleton, List.mem_cons,
          List.not_mem_nil, or_false]
        exact Or.comm)

theorem uniquePlaces_eq_firstOccurrenceDedup (a : List PlaceData) :
    uniquePlaces a = firstOccurrenceDedup [] a := by
  have h := uniquePlaces_aux a []
  simpa [uniquePlaces, List.enum_eq_enumFrom] using h

theorem jsOrString_ne_empty (a : Option String) (b : String) (hb : b ≠ "") :
    jsOrString a b ≠ "" := by
  rcases a with _ | s
  · exact hb
  · show (if s = "" then b else s) ≠ ""
    split
    · exact hb
    · assumption

/-- C1: For every input list of grounding chunks, the Grounding
Normalizer (the place-extraction part of sendMessageToGemini) returns
a list in which no two records have an equal title (case-sensitive
exact match), and the records appear in the order of the first
occurrence of each title in the input, with no sorting or reranking:
the output is pairwise distinct in title, equals the stable
first-occurrence deduplication of the records extracted from the
input, and is a sublist (hence a subsequence, never a reordering) of
those records. -/
theorem C1_normalizer_dedups_by_first_occurrence (chunks : List GroundingChunk) :
    (groundingNormalizer chunks).Pairwise (fun p q => p.title ≠ q.title)
    ∧ groundingNormalizer chunks = firstOccurrenceDedup [] (extractPlaces chunks)
    ∧ (groundingNormalizer chunks).Sublist (extractPlaces chunks) := by
  refine ⟨?_, ?_, ?_⟩
  · rw [groundingNormalizer, uniquePlaces_eq_firstOccurrenceDedup]
    exact firstOccurrenceDedup_pairwise _ _
  · rw [groundingNormalizer, uniquePlaces_eq_firstOccurrenceDedup]
  · rw [groundingNormalizer, uniquePlaces_eq_firstOccurrenceDedup]
    exact firstOccurrenceDedup_sublist _ _

/-- C2: For every input message and every transport/provider error
raised inside the live chat context's send call, sendMessageToGemini
does not propagate the error: it returns a successful-shaped
(Except.ok) result whose text is the fixed apology string and whose
places list is empty, for any prior state of the chat context. -/
theorem C2_provider_error_becomes_apology (chatSession : Option ChatContext)
    (message : String) (userLocation : Option Location) :
    sendMessageToGemini chatSession message userLocation .err
      = Except.ok (apologyText, []) := by
  cases chatSession <;> rfl

/-- C4: For every history list of Messages given to resumeChat, the
seed history passed to the new context excludes exactly the messages
with isThinking = true and the message with id "welcome", maps each
remaining message to its (role, text) pair, and preserves the relative
order of the remaining messages: resumeChat's seed equals the
spec-side filter-and-map specSeedHistory. -/
theorem C4_resume_seed_equals_spec_filter (history : List Message) :
    (resumeChat history).history = specSeedHistory history := by
  unfold resumeChat resumeChatSeed specSeedHistory
  simp only
  congr 1
  apply List.filter_congr
  intro m _
  rcases m.isThinking with _ | b
  · rfl
  · cases b <;> rfl

/-- C9: In sendMessageToGemini, the explicit error branch that throws
"Failed to initialize chat session" is unreachable: after the
defensive startNewChat fallback the live chat context is always
non-null, so for every prior context state and every provider outcome
the call returns Except.ok — it never throws on account of a missing
context. -/
theorem C9_init_failure_branch_unreachable (chatSession : Option ChatContext)
    (message : String) (userLocation : Option Location)
    (outcome : ProviderOutcome) :
    ∃ r, sendMessageToGemini chatSession message userLocation outcome
      = Except.ok r := by
  cases chatSession <;> cases outcome <;> exact ⟨_, rfl⟩

/-- C10: For every call, the text field of the result returned by
sendMessageToGemini is a non-empty string; when the provider succeeds
but returns absent or empty text the fixed default string is
substituted, and on provider error the fixed apology string is
returned. -/
theorem C10_result_text_never_empty (chatSession : Option ChatContext)
    (message : String) (userLocation : Option Location)
    (outcome : ProviderOutcome) (chunksOpt : Option (List GroundingChunk)) :
    (∃ t places,
      sendMessageToGemini chatSession message userLocation outcome
        = Except.ok (t, places) ∧ t ≠ "")
    ∧ (∃ places,
      sendMessageToGemini chatSession message userLocation
          (.ok { text := none, groundingChunks := chunksOpt })
        = Except.ok (defaultCuratedText, places))
    ∧ (∃ places,
      sendMessageToGemini chatSession message userLocation
          (.ok { text := some "", groundingChunks := chunksOpt })
        = Except.ok (defaultCuratedText, places))
    ∧ sendMessageToGemini chatSession message userLocation .err
      = Except.ok (apologyText, []) := by
  refine ⟨?_, ?_, ?_, ?_⟩
  · cases chatSession <;> rcases outcome with r | _
    · exact ⟨_, _, rfl, jsOrString_ne_empty _ _ (by decide)⟩
    · exact ⟨_, _, rfl, by decide⟩
    · exact ⟨_, _, rfl, jsOrString_ne_empty _ _ (by decide)⟩
    · exact ⟨_, _, rfl, by decide⟩
  · cases chatSession <;> exact ⟨_, rfl⟩
  · cases chatSession <;> exact ⟨_, rfl⟩
  · cases chatSession <;> rfl

theorem chunkToPlace_eq_none_of_rejected {c : GroundingChunk}
    (h : chunkRejected c) : chunkToPlace c = none := by
  rcases h with hm | ⟨m, hm, hrest⟩
  · unfold chunkToPlace
    rw [hm]
  · unfold chunkToPlace
    rw [hm]
    dsimp only
    rcases hrest with ht | ht | ⟨hu, hg⟩
    · rw [ht]
    · rw [ht]
      simp
    · rcases m.title with _ | t
      · rfl
      · simp [resolveUri, jsOrString, hu, hg]

/-- C7: For every input list of grounding chunks, a chunk that lacks a
non-empty title, or whose maps payload carries neither the primary uri
field nor the fallback googleMapsUri field, never produces a record in
the Grounding Normalizer's output: inserting such a chunk anywhere
leaves the output unchanged (the chunk is dropped silently, without
error). -/
theorem C7_rejected_chunk_never_produces_record
    (pre post : List GroundingChunk) (c : GroundingChunk)
    (h : chunkRejected c) :
    groundingNormalizer (pre ++ c :: post) = groundingNormalizer (pre ++ post) := by
  unfold groundingNormalizer extractPlaces
  rw [List.filterMap_append, List.filterMap_append,
    List.filterMap_cons_none (chunkToPlace_eq_none_of_rejected h)]

/-- Concrete instance of C7: a chunk with a title but neither URI field,
inserted after a well-formed chunk, changes nothing. -/
theorem C7_rejected_chunk_witness :
    chunkRejected noUriChunkEx
    ∧ groundingNormalizer ([goodChunkEx] ++ noUriChunkEx :: [])
        = groundingNormalizer ([goodChunkEx] ++ []) :=
  ⟨Or.inr ⟨_, rfl, Or.inr (Or.inr ⟨rfl, rfl⟩)⟩,
   C7_rejected_chunk_never_produces_record [goodChunkEx] [] noUriChunkEx
     (Or.inr ⟨_, rfl, Or.inr (Or.inr ⟨rfl, rfl⟩)⟩)⟩

theorem resolveTurnSuccess_map_title (cid tid rtext : String)
    (rplaces : List PlaceData) (sessions : List ChatSession) :
    (resolveTurnSuccess cid tid rtext rplaces sessions).map (fun x => x.title)
      = sessions.map (fun x => x.title) := by
  induction sessions with
  | nil => rfl
  | cons s rest ih =>
    simp only [resolveTurnSuccess, List.map_cons] at ih ⊢
    rw [ih]
    congr 1
    split <;> rfl

theorem resolveTurnError_map_title (cid tid : String)
    (sessions : List ChatSession) :
    (resolveTurnError cid tid sessions).map (fun x => x.title)
      = sessions.map (fun x => x.title) := by
  induction sessions with
  | nil => rfl
  | cons s rest ih =>
    simp only [resolveTurnError, List.map_cons] at ih ⊢
    rw [ih]
    congr 1
    split <;> rfl

/-- C5: For every session, the title is set exactly once, by the
session's first user turn (the submission step applied to a session
that still holds at most the welcome message): text longer than 30
characters is truncated to its first 30 characters plus an ellipsis,
shorter text is used verbatim; a submission on a session that already
has a turn leaves the title unchanged, any further turn after a first
one leaves it unchanged, and the resolution steps never touch any
title. -/
theorem C5_title_set_once_by_first_turn (uid tid uid2 tid2 text text2 cid tid3 rtext : String)
    (now now2 : Nat) (rplaces : List PlaceData) (s : ChatSession)
    (sessions : List ChatSession) :
    (s.messages.length ≤ 1 →
      (updateSessionOnSubmit s.id uid tid text now s).title
        = (if text.length > 30 then text.take 30 ++ "..." else text))
    ∧ (2 ≤ s.messages.length →
      (updateSessionOnSubmit s.id uid tid text now s).title = s.title)
    ∧ (updateSessionOnSubmit s.id uid2 tid2 text2 now2
          (updateSessionOnSubmit s.id uid tid text now s)).title
        = (updateSessionOnSubmit s.id uid tid text now s).title
    ∧ (resolveTurnSuccess cid tid3 rtext rplaces sessions).map (fun x => x.title)
        = sessions.map (fun x => x.title)
    ∧ (resolveTurnError cid tid3 sessions).map (fun x => x.title)
        = sessions.map (fun x => x.title) := by
  refine ⟨?_, ?_, ?_, resolveTurnSuccess_map_title cid tid3 rtext rplaces sessions,
    resolveTurnError_map_title cid tid3 sessions⟩
  · intro h
    simp [updateSessionOnSubmit, h, deriveTitle]
  · intro h
    have hn : ¬ s.messages.length ≤ 1 := by omega
    simp [updateSessionOnSubmit, hn]
  · have hn : ¬ ((updateSessionOnSubmit s.id uid tid text now s).messages.length ≤ 1) := by
      simp only [updateSessionOnSubmit, if_pos rfl]
      simp
    have hid : (updateSessionOnSubmit s.id uid tid text now s).id = s.id := by
      simp [updateSessionOnSubmit]
    conv_lhs => rw [updateSessionOnSubmit]
    rw [if_pos hid, if_neg hn]

/-- Concrete instance of C5: the first user turn on a fresh session
sets its title to the submitted text. -/
theorem C5_title_witness :
    (updateSessionOnSubmit sessionEx.id "u1" "t1" "hello" 5 sessionEx).title
      = (if String.length "hello" > 30 then String.take "hello" 30 ++ "..." else "hello") :=
  (C5_title_set_once_by_first_turn "u1" "t1" "u2" "t2" "hello" "x" "c" "t3" "r"
    5 6 [] sessionEx []).1 (by decide)

/-- C6: deleteSession on the last remaining session (necessarily the
active one, by the one-active-session invariant) leaves exactly one
session — the freshly created default session with the welcome message
and title "New Search" — never zero; and when the deleted session was
active and other sessions remain, the first remaining session becomes
active and its context is resumed. -/
theorem C6_delete_last_creates_default (st : AppState) (s0 : ChatSession)
    (id newId : String) (now : Nat) :
    (st.sessions = [s0] → s0.id = id → st.currentSessionId = some id →
      (deleteSession id newId now st).sessions = [newSessionObj newId now]
      ∧ (deleteSession id newId now st).currentSessionId = some newId
      ∧ (newSessionObj newId now).title = "New Search"
      ∧ (newSessionObj newId now).messages = [welcomeMsg])
    ∧ (∀ s1 rest, st.currentSessionId = some id →
        st.sessions.filter (fun s => s.id != id) = s1 :: rest →
        (deleteSession id newId now st).sessions = s1 :: rest
        ∧ (deleteSession id newId now st).currentSessionId = some s1.id
        ∧ (deleteSession id newId now st).chat = some (resumeChat s1.messages)) := by
  constructor
  · intro hs hid hcur
    subst hid
    refine ⟨?_, ?_, rfl, rfl⟩ <;>
      simp [deleteSession, createNewSession, hs, hcur]
  · intro s1 rest hcur hfilter
    refine ⟨?_, ?_, ?_⟩ <;>
      simp [deleteSession, hfilter, hcur]

/-- Concrete instance of C6: deleting the only session of stateEx
leaves exactly the fresh default session, which is active. -/
theorem C6_delete_last_witness :
    (deleteSession "s1" "n2" 7 stateEx).sessions = [newSessionObj "n2" 7]
    ∧ (deleteSession "s1" "n2" 7 stateEx).currentSessionId = some "n2" :=
  ⟨((C6_delete_last_creates_default stateEx sessionEx "s1" "n2" 7).1 rfl rfl rfl).1,
   ((C6_delete_last_creates_default stateEx sessionEx "s1" "n2" 7).1 rfl rfl rfl).2.1⟩

theorem mostRecentOf_spec :
    ∀ (rest : List ChatSession) (s0 : ChatSession),
      (mostRecentOf s0 rest = s0 ∨ mostRecentOf s0 rest ∈ rest)
      ∧ s0.lastUpdated ≤ (mostRecentOf s0 rest).lastUpdated
      ∧ ∀ s ∈ rest, s.lastUpdated ≤ (mostRecentOf s0 rest).lastUpdated
  | [], s0 => ⟨Or.inl rfl, Nat.le_refl _, fun s hs => absurd hs (List.not_mem_nil _)⟩
  | s :: rest, s0 => by
    have ih := mostRecentOf_spec rest (if s0.lastUpdated < s.lastUpdated then s else s0)
    have hstep : mostRecentOf s0 (s :: rest)
        = mostRecentOf (if s0.lastUpdated < s.lastUpdated then s else s0) rest := rfl
    have hacc0 : s0.lastUpdated
        ≤ (if s0.lastUpdated < s.lastUpdated then s else s0).lastUpdated := by
      split <;> omega
    have hacc1 : s.lastUpdated
        ≤ (if s0.lastUpdated < s.lastUpdated then s else s0).lastUpdated := by
      split <;> omega
    refine ⟨?_, ?_, ?_⟩
    · rw [hstep]
      rcases ih.1 with he | he
      · rw [he]
        split
        · exact Or.inr (List.mem_cons_self _ _)
        · exact Or.inl rfl
      · exact Or.inr (List.mem_cons_of_mem _ he)
    · rw [hstep]
      exact Nat.le_trans hacc0 ih.2.1
    · intro t ht
      rw [hstep]
      rcases List.mem_cons.mp ht with rfl | hmem
      · exact Nat.le_trans hacc1 ih.2.1
      · exact ih.2.2 t hmem

/-- C8: loading from a null input, from unparsable JSON, or from a
parsed empty list (starting from the empty session list) yields
exactly one default session — title "New Search", a single welcome
message, active; loading a successfully parsed non-empty list makes a
session with maximal lastUpdated active and resumes the conversation
context from its messages. -/
theorem C8_load_selects_default_or_most_recent (newId : String) (now : Nat)
    (st : AppState) (s0 : ChatSession) (rest : List ChatSession) :
    (st.sessions = [] →
      ((parseAndLoadSessions .null newId now st).sessions = [newSessionObj newId now]
        ∧ (parseAndLoadSessions .null newId now st).currentSessionId = some newId)
      ∧ ((parseAndLoadSessions .invalid newId now st).sessions = [newSessionObj newId now]
        ∧ (parseAndLoadSessions .invalid newId now st).currentSessionId = some newId)
      ∧ (parseAndLoadSessions (.valid []) newId now st).sessions = [newSessionObj newId now]
      ∧ (newSessionObj newId now).title = "New Search"
      ∧ (newSessionObj newId now).messages = [welcomeMsg])
    ∧ ((parseAndLoadSessions (.valid (s0 :: rest)) newId now st).currentSessionId
        = some (mostRecentOf s0 rest).id
      ∧ (parseAndLoadSessions (.valid (s0 :: rest)) newId now st).chat
        = some (resumeChat (mostRecentOf s0 rest).messages)
      ∧ mostRecentOf s0 rest ∈ s0 :: rest
      ∧ ∀ s ∈ s0 :: rest, s.lastUpdated ≤ (mostRecentOf s0 rest).lastUpdated) := by
  constructor
  · intro hs
    refine ⟨⟨?_, rfl⟩, ⟨?_, rfl⟩, ?_, rfl, rfl⟩ <;>
      simp [parseAndLoadSessions, createNewSession, hs]
  · have h := mostRecentOf_spec rest s0
    refine ⟨rfl, rfl, ?_, ?_⟩
    · rcases h.1 with he | he
      · rw [he]
        exact List.mem_cons_self _ _
      · exact List.mem_cons_of_mem _ he
    · intro s hs
      rcases List.mem_cons.mp hs with rfl | hmem
      · exact h.2.1
      · exact h.2.2 s hmem

/-- Concrete instance of C8: loading null from no sessions creates the
one default session; loading a parsed two-session list activates the
one with the larger lastUpdated. -/
theorem C8_load_witness :
    (parseAndLoadSessions .null "n1" 4 emptyStateEx).sessions = [newSessionObj "n1" 4]
    ∧ (parseAndLoadSessions (.valid [sessionEx, sessionEx2]) "n1" 4
        emptyStateEx).currentSessionId = some (mostRecentOf sessionEx [sessionEx2]).id :=
  ⟨((C8_load_selects_default_or_most_recent "n1" 4 emptyStateEx sessionEx [sessionEx2]).1 rfl).1.1,
   (C8_load_selects_default_or_most_recent "n1" 4 emptyStateEx sessionEx [sessionEx2]).2.1⟩

theorem resolveTurnSuccess_map_lastUpdated (cid tid rtext : String)
    (rplaces : List PlaceData) (sessions : List ChatSession) :
    (resolveTurnSuccess cid tid rtext rplaces sessions).map (fun x => x.lastUpdated)
      = sessions.map (fun x => x.lastUpdated) := by
  induction sessions with
  | nil => rfl
  | cons s rest ih =>
    simp only [resolveTurnSuccess, List.map_cons] at ih ⊢
    rw [ih]
    congr 1
    split <;> rfl

theorem resolveTurnError_map_lastUpdated (cid tid : String)
    (sessions : List ChatSession) :
    (resolveTurnError cid tid sessions).map (fun x => x.lastUpdated)
      = sessions.map (fun x => x.lastUpdated) := by
  induction sessions with
  | nil => rfl
  | cons s rest ih =>
    simp only [resolveTurnError, List.map_cons] at ih ⊢
    rw [ih]
    congr 1
    split <;> rfl

theorem submitTurn_map_lastUpdated (cid uid tid text : String) (now : Nat)
    (sessions : List ChatSession) :
    (submitTurn cid uid tid text now sessions).map (fun x => x.lastUpdated)
      = sessions.map (fun x => if x.id = cid then now else x.lastUpdated) := by
  induction sessions with
  | nil => rfl
  | cons s rest ih =>
    simp only [submitTurn, List.map_cons] at ih ⊢
    rw [ih]
    congr 1
    unfold updateSessionOnSubmit
    by_cases he : s.id = cid
    · rw [if_pos he, if_pos he]
    · rw [if_neg he, if_neg he]

/-- C3 is false as stated: lastUpdated changes at turn submission, not
at turn completion.  At the concrete fresh session sessionEx
(lastUpdated 0), the submission step of handleSendMessage — an
operation that is not the completion of a turn — already sets
lastUpdated to the submission time 5, and the completion step then
leaves lastUpdated untouched at 5. -/
theorem C3_counterexample_submission_bumps_lastUpdated :
    sessionEx.lastUpdated = 0
    ∧ (submitTurn "s1" "u1" "t1" "hello" 5 [sessionEx]).map (fun x => x.lastUpdated) = [5]
    ∧ (resolveTurnSuccess "s1" "t1" "resp" []
          (submitTurn "s1" "u1" "t1" "hello" 5 [sessionEx])).map (fun x => x.lastUpdated)
        = (submitTurn "s1" "u1" "t1" "hello" 5 [sessionEx]).map (fun x => x.lastUpdated) := by
  refine ⟨rfl, ?_, ?_⟩ <;> rfl

/-- C3 amended: a session's lastUpdated changes only at turn submission
(the handleSendMessage step that appends the user message and the
thinking placeholder): submission sets the active session's
lastUpdated to the submission time and leaves every other session's
unchanged; both resolution (completion) steps preserve every
lastUpdated; createNewSession leaves all pre-existing sessions
untouched; and every session surviving deleteSession is either an
unmodified original or the freshly created default. -/
theorem C3_lastUpdated_changes_only_at_submission
    (cid uid tid tid2 text rtext newId id : String) (now nowb : Nat)
    (rplaces : List PlaceData) (sessions : List ChatSession) (st : AppState) :
    (submitTurn cid uid tid text now sessions).map (fun x => x.lastUpdated)
      = sessions.map (fun x => if x.id = cid then now else x.lastUpdated)
    ∧ (resolveTurnSuccess cid tid2 rtext rplaces sessions).map (fun x => x.lastUpdated)
      = sessions.map (fun x => x.lastUpdated)
    ∧ (resolveTurnError cid tid2 sessions).map (fun x => x.lastUpdated)
      = sessions.map (fun x => x.lastUpdated)
    ∧ (createNewSession newId nowb st).sessions = newSessionObj newId nowb :: st.sessions
    ∧ (∀ s ∈ (deleteSession id newId nowb st).sessions,
        s ∈ st.sessions ∨ s = newSessionObj newId nowb) := by
  refine ⟨submitTurn_map_lastUpdated cid uid tid text now sessions,
    resolveTurnSuccess_map_lastUpdated cid tid2 rtext rplaces sessions,
    resolveTurnError_map_lastUpdated cid tid2 sessions, rfl, ?_⟩
  intro s hs
  simp only [deleteSession] at hs
  by_cases hcur : st.currentSessionId = some id
  · rw [if_pos hcur] at hs
    rcases hmatch : st.sessions.filter (fun x => x.id != id) with _ | ⟨s1, rest⟩
    · rw [hmatch] at hs
      simp only [createNewSession, List.mem_cons] at hs
      rcases hs with rfl | hmem
      · exact Or.inr rfl
      · exact absurd hmem (List.not_mem_nil _)
    · rw [hmatch] at hs
      simp only at hs
      exact Or.inl (List.mem_of_mem_filter (hmatch ▸ hs))
  · rw [if_neg hcur] at hs
    simp only at hs
    exact Or.inl (List.mem_of_mem_filter hs)

end CondoScout
